import Mathlib

/-!
Shallow embedding of the satellite-telemetry / anomaly-detection pipeline
(`src/js/telemetry.js`, `src/js/anomaly-detection.js`).

Numbers: JS floating-point values are modelled as rationals (`ℚ`); epoch
timestamps in milliseconds as integers (`ℤ`).  Values that the source
computes with `Math.sqrt` / `Math.log` live in `ℝ`.  JS `NaN` is modelled
by `Option` (`none` = NaN), with monadic propagation matching the fact
that `Math.min`/`Math.max`/arithmetic propagate NaN.

Randomness (`Math.random()`) is modelled as an oracle `rnd : ℕ → ℚ`
consumed at an explicit counter, and the random-comparator shuffle of
`createSubsample` as an oracle permutation; timers (`setTimeout`) as an
explicit pending-timer list together with a step that fires one timer.
-/

namespace SatDash

/-! ## Telemetry simulator (`src/js/telemetry.js`) -/

/-- Subsystem status strings `'normal' | 'warning' | 'critical'`. -/
inductive SubsystemStatus where
  | normal
  | warning
  | critical
deriving DecidableEq, Repr

/-- Source `TelemetrySimulator.getBatteryStatus(voltage, temperature, capacity)`
(telemetry.js 304-313).  `this.subsystems.battery.temperature.threshold`
is the constant `45`, never mutated. -/
def getBatteryStatus (voltage temperature capacity : ℚ) : SubsystemStatus :=
  if 45 < temperature ∨ voltage < 20 ∨ capacity < 60 then .critical
  else if 35 < temperature ∨ voltage < 22 ∨ capacity < 80 then .warning
  else .normal

/-- State of `TelemetrySimulator` relevant to history management and fault
injection.  The telemetry payload of a sample is irrelevant to these
claims (it is noise-driven), so samples are identified abstractly by `ℕ`.
`dataHistory` is an object with one array per category; `simulatedFailures`
is a JS object modelled as an insertion-ordered association list (plain
assignment to a missing key appends it); `pendingClears` holds the armed
`setTimeout` fault-clear callbacks as (subsystem, fire-time) pairs. -/
structure TelemetrySimulator where
  dataHistoryPower : List ℕ
  dataHistoryThermal : List ℕ
  dataHistoryCommunication : List ℕ
  dataHistoryAttitude : List ℕ
  simulatedFailures : List (String × Bool)
  pendingClears : List (String × ℤ)
deriving DecidableEq, Repr

/-- JS property assignment `obj[k] = v` on an object modelled as an
association list: update the key in place if present, else append it. -/
def setFlag : List (String × Bool) → String → Bool → List (String × Bool)
  | [], k, v => [(k, v)]
  | (a, b) :: rest, k, v =>
    if a = k then (a, v) :: rest else (a, b) :: setFlag rest k v

/-- The freshly constructed simulator: empty histories (before
`initializeHistory` pre-fills them via `generateTelemetryPoint`), the four
documented failure flags false, no pending timers (telemetry.js 11-17, 53-59). -/
def simInit : TelemetrySimulator :=
  { dataHistoryPower := []
    dataHistoryThermal := []
    dataHistoryCommunication := []
    dataHistoryAttitude := []
    simulatedFailures :=
      [("battery", false), ("solar", false), ("thermal", false), ("communication", false)]
    pendingClears := [] }

/-- History-management effect of `generateTelemetryPoint` (telemetry.js
111-132): push the new point onto the power, thermal and communication
histories, then if the power history exceeds 300 entries shift (drop the
oldest of) all three.  The attitude history is not touched by this code. -/
def generateTelemetryPoint (st : TelemetrySimulator) (pt : ℕ) : TelemetrySimulator :=
  let power := st.dataHistoryPower ++ [pt]
  let thermal := st.dataHistoryThermal ++ [pt]
  let comm := st.dataHistoryCommunication ++ [pt]
  if 300 < power.length then
    { st with
        dataHistoryPower := power.tail
        dataHistoryThermal := thermal.tail
        dataHistoryCommunication := comm.tail }
  else
    { st with
        dataHistoryPower := power
        dataHistoryThermal := thermal
        dataHistoryCommunication := comm }

/-- Source `TelemetrySimulator.simulateFailure(subsystem)` (telemetry.js 350-358):
set `simulatedFailures[subsystem] = true` and arm a one-shot `setTimeout`
that will call `clearFailure(subsystem)` 30000 ms later.  No handle to any
earlier timer is kept, so nothing is cancelled. -/
def simulateFailure (st : TelemetrySimulator) (subsystem : String) (now : ℤ) :
    TelemetrySimulator :=
  { st with
      simulatedFailures := setFlag st.simulatedFailures subsystem true
      pendingClears := st.pendingClears ++ [(subsystem, now + 30000)] }

/-- Source `TelemetrySimulator.clearFailure(subsystem)` (telemetry.js 360-363). -/
def clearFailure (st : TelemetrySimulator) (subsystem : String) : TelemetrySimulator :=
  { st with simulatedFailures := setFlag st.simulatedFailures subsystem false }

/-- One armed fault-clear timer fires: its callback runs
`clearFailure(subsystem)` and the timer leaves the pending queue. -/
def firePendingClear (st : TelemetrySimulator) (subsystem : String) (t : ℤ) :
    TelemetrySimulator :=
  { clearFailure st subsystem with
      pendingClears := st.pendingClears.erase (subsystem, t) }

/-- Simulator states reachable from construction through the operations
that touch this state: ticks, fault injection/clearing, timer firing. -/
inductive SimReachable : TelemetrySimulator → Prop where
  | init : SimReachable simInit
  | tick (st : TelemetrySimulator) (pt : ℕ) :
      SimReachable st → SimReachable (generateTelemetryPoint st pt)
  | inject (st : TelemetrySimulator) (s : String) (now : ℤ) :
      SimReachable st → SimReachable (simulateFailure st s now)
  | clear (st : TelemetrySimulator) (s : String) :
      SimReachable st → SimReachable (clearFailure st s)
  | fire (st : TelemetrySimulator) (s : String) (t : ℤ) :
      SimReachable st → SimReachable (firePendingClear st s t)

/-! ## Anomaly detector alert lifecycle (`src/js/anomaly-detection.js`) -/

/-- An alert record as built by `processDetectedAnomalies` (anomaly-detection.js
334-351).  Payload fields irrelevant to the claims (`value`, `score`,
`message`, `recommendation`, `explanation`, `threshold`) are elided; the
identity and lifecycle fields are kept.  `type` is the detection kind
(`threshold | statistical | ml_isolation | ml_lstm | pattern`). -/
structure Alert where
  id : String
  subsystem : String
  parameter : String
  type : String
  severity : String
  timestamp : ℤ
  acknowledged : Bool
  acknowledgedAt : Option ℤ
  acknowledgedBy : Option String
deriving DecidableEq, Repr

/-- A detector output before `processDetectedAnomalies` stamps metadata on
it: the structural signature fields, plus the id that `generateAnomalyId`
will assign (the id is random wall-clock material, supplied as an oracle). -/
structure Detection where
  id : String
  subsystem : String
  parameter : String
  type : String
  severity : String
deriving DecidableEq, Repr

/-- Metadata stamping at anomaly-detection.js 336-339: fresh id, the
triggering sample's timestamp, not acknowledged. -/
def mkAlert (d : Detection) (now : ℤ) : Alert :=
  { id := d.id
    subsystem := d.subsystem
    parameter := d.parameter
    type := d.type
    severity := d.severity
    timestamp := now
    acknowledged := false
    acknowledgedAt := none
    acknowledgedBy := none }

/-- The structural signature used by the dedup check. -/
def sigOf (a : Alert) : String × String × String × String :=
  (a.subsystem, a.parameter, a.type, a.severity)

/-- Alert-lifecycle state of `AnomalyDetector`: `this.anomalies` (the
active set) and `this.anomalyHistory`.  In JS both lists hold references
to the same alert objects; mutation through one list is modelled below by
id-directed updates of the other. -/
structure AnomalyDetectorState where
  anomalies : List Alert
  anomalyHistory : List Alert
deriving DecidableEq, Repr

/-- Initial detector state (anomaly-detection.js 30-31). -/
def detInit : AnomalyDetectorState := { anomalies := [], anomalyHistory := [] }

/-- Source `AnomalyDetector.isDuplicateAnomaly` (anomaly-detection.js 362-373):
some active alert detected less than 30000 ms ago (relative to the current
time) has the same subsystem, parameter, type and severity.  `Date.now()`
inside the method is the same instant as the batch's telemetry timestamp
(the event dispatch is synchronous), modelled by the single `now`. -/
def isDuplicateAnomaly (anomalies : List Alert) (now : ℤ) (a : Alert) : Bool :=
  (anomalies.filter (fun x => now - x.timestamp < 30000)).any (fun x =>
    x.subsystem = a.subsystem ∧ x.parameter = a.parameter ∧
    x.type = a.type ∧ x.severity = a.severity)

/-- Body of the per-anomaly loop in `processDetectedAnomalies`
(anomaly-detection.js 335-351): stamp metadata, then unless it is a
duplicate push it onto both the active set and the history. -/
def insertAnomaly (now : ℤ) (s : AnomalyDetectorState) (d : Detection) :
    AnomalyDetectorState :=
  let a := mkAlert d now
  if isDuplicateAnomaly s.anomalies now a then s
  else
    { s with
        anomalies := s.anomalies ++ [a]
        anomalyHistory := s.anomalyHistory ++ [a] }

/-- The in-place mutation `cleanupOldAnomalies` performs on an expiring
alert object (anomaly-detection.js 380-384). -/
def autoAcknowledge (now : ℤ) (a : Alert) : Alert :=
  if a.acknowledged then a
  else
    { a with
        acknowledged := true
        acknowledgedAt := some now
        acknowledgedBy := some "auto-cleanup" }

/-- Source `AnomalyDetector.cleanupOldAnomalies` (anomaly-detection.js 375-389):
every active alert older than 300000 ms is auto-acknowledged and removed
from the active set.  The removed objects are aliased by `anomalyHistory`,
so the history entries with those ids show the acknowledgement. -/
def cleanupOldAnomalies (now : ℤ) (s : AnomalyDetectorState) : AnomalyDetectorState :=
  let removed := s.anomalies.filter (fun a => 300000 < now - a.timestamp)
  { anomalies := s.anomalies.filter (fun a => ¬ 300000 < now - a.timestamp)
    anomalyHistory :=
      s.anomalyHistory.map (fun b =>
        if removed.any (fun r => r.id = b.id) then autoAcknowledge now b else b) }

/-- Source `AnomalyDetector.processDetectedAnomalies` (anomaly-detection.js
334-360): insert each detected anomaly (with dedup), sweep expired active
alerts, then trim the history to its last 500 entries if it exceeds 1000. -/
def processDetectedAnomalies (s : AnomalyDetectorState) (batch : List Detection)
    (now : ℤ) : AnomalyDetectorState :=
  let s1 := batch.foldl (insertAnomaly now) s
  let s2 := cleanupOldAnomalies now s1
  if 1000 < s2.anomalyHistory.length then
    { s2 with
        anomalyHistory := s2.anomalyHistory.drop (s2.anomalyHistory.length - 500) }
  else s2

/-- Alert-lifecycle effect of one `processTelemetry` tick
(anomaly-detection.js 57-85): the detector outputs for this tick are the
`batch` oracle; `processDetectedAnomalies` (and with it the cleanup sweep)
runs only when at least one anomaly was detected this tick. -/
def processTelemetryStep (s : AnomalyDetectorState) (batch : List Detection)
    (now : ℤ) : AnomalyDetectorState :=
  if batch.isEmpty then s else processDetectedAnomalies s batch now

/-- Source `AnomalyDetector.getActiveAnomalies` (anomaly-detection.js 430-432). -/
def getActiveAnomalies (s : AnomalyDetectorState) : List Alert :=
  s.anomalies.filter (fun a => !a.acknowledged)

/-- Source `AnomalyDetector.acknowledgeAnomaly` (anomaly-detection.js 439-451):
find an active alert by id; if found, mark it acknowledged (the history
aliases the same object, hence the id-directed history update) and filter
it out of the active set, returning true; otherwise return false. -/
def acknowledgeAnomaly (s : AnomalyDetectorState) (anomalyId who : String)
    (now : ℤ) : Bool × AnomalyDetectorState :=
  match s.anomalies.find? (fun a => a.id = anomalyId) with
  | some _ =>
    (true,
      { anomalies := s.anomalies.filter (fun a => a.id ≠ anomalyId)
        anomalyHistory :=
          s.anomalyHistory.map (fun b =>
            if b.id = anomalyId then
              { b with
                  acknowledged := true
                  acknowledgedAt := some now
                  acknowledgedBy := some who }
            else b) })
  | none => (false, s)

/-- Detector states reachable from construction through ticks and
manual acknowledgements. -/
inductive DetReachable : AnomalyDetectorState → Prop where
  | init : DetReachable detInit
  | tick (s : AnomalyDetectorState) (batch : List Detection) (now : ℤ) :
      DetReachable s → DetReachable (processTelemetryStep s batch now)
  | ack (s : AnomalyDetectorState) (anomalyId who : String) (now : ℤ) :
      DetReachable s → DetReachable (acknowledgeAnomaly s anomalyId who now).2

/-- The structural signature of a detection (what `mkAlert` stamps into
the corresponding alert's signature fields). -/
def sigOfD (d : Detection) : String × String × String × String :=
  (d.subsystem, d.parameter, d.type, d.severity)

/-- A concrete threshold detection used as a test vector. -/
def sampleDetection1 : Detection :=
  { id := "a1", subsystem := "battery", parameter := "voltage",
    type := "threshold", severity := "warning" }

/-- A structurally identical detection with a fresh id. -/
def sampleDetection2 : Detection :=
  { id := "a2", subsystem := "battery", parameter := "voltage",
    type := "threshold", severity := "warning" }

/-- The detector state after one tick at `t = 0` that detected
`sampleDetection1`. -/
def detStateOne : AnomalyDetectorState := processTelemetryStep detInit [sampleDetection1] 0

/-! ## `StatisticalModel` (anomaly-detection.js 474-515) -/

/-- Windowed mean as computed at anomaly-detection.js 497. -/
def listMean (l : List ℚ) : ℚ := l.sum / l.length

/-- Windowed population variance as computed at anomaly-detection.js 498
(deviations are taken from the just-computed mean). -/
def listPopVariance (l : List ℚ) : ℚ :=
  ((l.map fun v => (v - listMean l) ^ 2).sum) / l.length

/-- State of `StatisticalModel` with the default `windowSize = 100` (the
only instantiation).  `standardDeviation` is stored in the source but is
always `Math.sqrt(this.variance)` (set together with `variance` at
anomaly-detection.js 499, both `0` at construction since `sqrt 0 = 0`),
so it is modelled as the derived view `statStdDev` below. -/
structure StatisticalModel where
  dataPoints : List ℚ
  mean : ℚ
  variance : ℚ
deriving DecidableEq, Repr

/-- Source `new StatisticalModel()` (anomaly-detection.js 476-482). -/
def statInit : StatisticalModel := { dataPoints := [], mean := 0, variance := 0 }

/-- Source `StatisticalModel.updateStatistics` (anomaly-detection.js 494-500):
below 10 points the stored statistics are left untouched. -/
def updateStatistics (m : StatisticalModel) : StatisticalModel :=
  if m.dataPoints.length < 10 then m
  else
    { m with
        mean := listMean m.dataPoints
        variance := listPopVariance m.dataPoints }

/-- Source `StatisticalModel.addDataPoint` (anomaly-detection.js 484-492): push,
shift when the window exceeds 100, recompute statistics. -/
def addDataPoint (m : StatisticalModel) (value : ℚ) : StatisticalModel :=
  let pts := m.dataPoints ++ [value]
  let pts := if 100 < pts.length then pts.tail else pts
  updateStatistics { m with dataPoints := pts }

/-- Source `this.standardDeviation = Math.sqrt(this.variance)`
(anomaly-detection.js 499). -/
noncomputable def statStdDev (m : StatisticalModel) : ℝ :=
  Real.sqrt (m.variance : ℝ)

/-- Source `StatisticalModel.hasEnoughData` (anomaly-detection.js 512-514). -/
def hasEnoughData (m : StatisticalModel) : Prop :=
  20 ≤ m.dataPoints.length ∧ 0 < statStdDev m

/-- Source `StatisticalModel.calculateAnomalyScore` (anomaly-detection.js
502-510): zero without enough data, else
`min(0.999, max(0, (z - 1) / 2))` for `z = |(value - mean) / stddev|`. -/
noncomputable def calculateAnomalyScore (m : StatisticalModel) (value : ℚ) : ℝ :=
  open Classical in
  if 20 ≤ m.dataPoints.length ∧ 0 < statStdDev m then
    let zScore := |((value : ℝ) - (m.mean : ℝ)) / statStdDev m|
    min 0.999 (max 0 ((zScore - 1) / 2))
  else 0

/-! ## `IsolationForest` (anomaly-detection.js 517-617)

Constants: `numTrees = 10`, `subsampleSize = 50` (the only
instantiation uses the defaults). -/

/-- A partition tree.  A leaf object `{ size }` stores the partition's
size; an internal node `{ featureIndex, splitValue, left, right }`. -/
inductive ITree where
  | leaf (size : ℕ)
  | node (featureIndex : ℕ) (splitValue : ℚ) (left right : ITree)
deriving DecidableEq, Repr

/-- Source `Math.min(...values)` for a nonempty list (empty never occurs in the
source: the callee guarantees at least two data points). -/
def listMinQ : List ℚ → ℚ
  | [] => 0
  | x :: xs => xs.foldl min x

/-- Source `Math.max(...values)`, as `listMinQ`. -/
def listMaxQ : List ℚ → ℚ
  | [] => 0
  | x :: xs => xs.foldl max x

/-- State of `IsolationForest` (anomaly-detection.js 519-525). -/
structure IsolationForest where
  trees : List ITree
  trainingData : List (List ℚ)
  trained : Bool
deriving DecidableEq, Repr

/-- Source `new IsolationForest()`. -/
def forestInit : IsolationForest := { trees := [], trainingData := [], trained := false }

/-- Source `IsolationForest.buildTree` (anomaly-detection.js 560-586).
`rnd : ℕ → ℚ` is the `Math.random()` oracle, consumed at counter `k`
(one draw for the feature index, one for the split value); `fuel` is
`maxDepth - currentDepth`, so `fuel = 0` is `currentDepth >= maxDepth`. -/
def buildTree (rnd : ℕ → ℚ) : ℕ → ℕ → List (List ℚ) → ITree × ℕ
  | 0, k, data => (.leaf data.length, k)
  | fuel + 1, k, data =>
    if data.length ≤ 1 then (.leaf data.length, k)
    else
      let numFeatures := (data.headD []).length
      let featureIndex := (⌊rnd k * numFeatures⌋).toNat
      let featureValues := data.map fun point => point.getD featureIndex 0
      let minVal := listMinQ featureValues
      let maxVal := listMaxQ featureValues
      if minVal = maxVal then (.leaf data.length, k + 1)
      else
        let splitValue := minVal + rnd (k + 1) * (maxVal - minVal)
        let leftData := data.filter fun point => point.getD featureIndex 0 < splitValue
        let rightData := data.filter fun point => ¬ point.getD featureIndex 0 < splitValue
        let lk := buildTree rnd fuel (k + 2) leftData
        let rk := buildTree rnd fuel lk.2 rightData
        (.node featureIndex splitValue lk.1 rk.1, rk.2)

/-- One iteration of the tree-building loop in `IsolationForest.train`
(anomaly-detection.js 545-549): draw the `i`-th subsample — the shuffle of
`createSubsample` (a sort under a random comparator, anomaly-detection.js
555-558) is the oracle `shuffles i`, and its `slice(0, min(50, length))`
is `take 50` — build one tree with `maxDepth = ceil(log2(50))`
(`Nat.clog 2 50`), and push it. -/
def trainStepFn (shuffles : ℕ → List (List ℚ) → List (List ℚ)) (rnd : ℕ → ℚ)
    (pool : List (List ℚ)) (acc : List ITree × ℕ) (i : ℕ) : List ITree × ℕ :=
  let subsample := (shuffles i pool).take 50
  let tk := buildTree rnd (Nat.clog 2 50) acc.2 subsample
  (acc.1 ++ [tk.1], tk.2)

/-- Source `IsolationForest.train` (anomaly-detection.js 540-553): with at least
20 pooled vectors, rebuild the whole ensemble of 10 trees and mark the
forest trained. -/
def train (shuffles : ℕ → List (List ℚ) → List (List ℚ)) (rnd : ℕ → ℚ) (k : ℕ)
    (f : IsolationForest) : IsolationForest × ℕ :=
  if f.trainingData.length < 20 then (f, k)
  else
    let built := (List.range 10).foldl (trainStepFn shuffles rnd f.trainingData) ([], k)
    ({ f with trees := built.1, trained := true }, built.2)

/-- Source `IsolationForest.addTrainingData` (anomaly-detection.js 527-538):
push a copy of the feature vector, shift beyond 500, retrain when the
pool size is a multiple of 50 and at least 100. -/
def addTrainingData (shuffles : ℕ → List (List ℚ) → List (List ℚ)) (rnd : ℕ → ℚ)
    (k : ℕ) (f : IsolationForest) (features : List ℚ) : IsolationForest × ℕ :=
  let pool := f.trainingData ++ [features]
  let pool := if 500 < pool.length then pool.tail else pool
  let f' := { f with trainingData := pool }
  if pool.length % 50 = 0 ∧ 100 ≤ pool.length then train shuffles rnd k f'
  else (f', k)

/-- The Euler-Mascheroni path-length correction `c(n)`
(anomaly-detection.js 613-616). -/
noncomputable def cFactor (n : ℕ) : ℝ :=
  if n ≤ 1 then 0
  else 2 * (Real.log ((n : ℝ) - 1) + 0.5772156649) - 2 * ((n : ℝ) - 1) / n

/-- Source `IsolationForest.getPathLength` (anomaly-detection.js 601-611).
The JS leaf test is `!tree.featureIndex`, which is also true of an
internal node whose `featureIndex` is `0`; that branch then reads the
absent `size` field, and `c(undefined)` is `NaN` — modelled as `none`.
True leaves yield `currentDepth + c(size)`. -/
noncomputable def getPathLength (features : List ℚ) : ITree → ℕ → Option ℝ
  | .leaf n, currentDepth => some ((currentDepth : ℝ) + cFactor n)
  | .node featureIndex splitValue left right, currentDepth =>
    if featureIndex = 0 then none
    else if features.getD featureIndex 0 < splitValue then
      getPathLength features left (currentDepth + 1)
    else getPathLength features right (currentDepth + 1)

/-- Source `IsolationForest.predict` (anomaly-detection.js 588-599): `0` when
untrained or treeless; otherwise the average path length over all trees,
normalised by `log2(subsampleSize)` and clamped to `[0,1]`.  `NaN`
(`none`) propagates through the sum, the average and `Math.min`/`Math.max`
exactly as in JS. -/
noncomputable def predict (f : IsolationForest) (features : List ℚ) : Option ℝ :=
  if f.trained = false ∨ f.trees = [] then some 0
  else
    let pathLengths := f.trees.map fun t => getPathLength features t 0
    let total := pathLengths.foldr
      (fun p acc => p.bind fun x => acc.map fun s => x + s) (some 0)
    (total.map fun s => s / (pathLengths.length : ℝ)).map fun avg =>
      max 0 (min 1 (1 - avg / Real.logb 2 50))

/-- Forest states reachable from construction via `addTrainingData` and
explicit `train()` triggers, under arbitrary randomness/shuffle oracles. -/
inductive ForestReachable : IsolationForest → Prop where
  | init : ForestReachable forestInit
  | observe (shuffles : ℕ → List (List ℚ) → List (List ℚ)) (rnd : ℕ → ℚ) (k : ℕ)
      (f : IsolationForest) (features : List ℚ) :
      ForestReachable f → ForestReachable (addTrainingData shuffles rnd k f features).1
  | trainStep (shuffles : ℕ → List (List ℚ) → List (List ℚ)) (rnd : ℕ → ℚ) (k : ℕ)
      (f : IsolationForest) :
      ForestReachable f → ForestReachable (train shuffles rnd k f).1


/-- The `Math.random()` oracle that always returns 0 (one admissible run:
every draw lands in `[0, 1/8)`, so every split picks feature index 0). -/
def rndZero : ℕ → ℚ := fun _ => 0

/-- The subsample-shuffle oracle that leaves the pool in order (one
admissible outcome of sorting under a random comparator). -/
def idShuffle : ℕ → List (List ℚ) → List (List ℚ) := fun _ l => l

/-- A training pool of twenty 8-field feature vectors whose feature 0
alternates between 0 and 1 (so feature 0 is not constant). -/
def bugPool : List (List ℚ) :=
  [ [0, 0, 0, 0, 0, 0, 0, 0],
    [1, 0, 0, 0, 0, 0, 0, 0],
    [0, 0, 0, 0, 0, 0, 0, 0],
    [1, 0, 0, 0, 0, 0, 0, 0],
    [0, 0, 0, 0, 0, 0, 0, 0],
    [1, 0, 0, 0, 0, 0, 0, 0],
    [0, 0, 0, 0, 0, 0, 0, 0],
    [1, 0, 0, 0, 0, 0, 0, 0],
    [0, 0, 0, 0, 0, 0, 0, 0],
    [1, 0, 0, 0, 0, 0, 0, 0],
    [0, 0, 0, 0, 0, 0, 0, 0],
    [1, 0, 0, 0, 0, 0, 0, 0],
    [0, 0, 0, 0, 0, 0, 0, 0],
    [1, 0, 0, 0, 0, 0, 0, 0],
    [0, 0, 0, 0, 0, 0, 0, 0],
    [1, 0, 0, 0, 0, 0, 0, 0],
    [0, 0, 0, 0, 0, 0, 0, 0],
    [1, 0, 0, 0, 0, 0, 0, 0],
    [0, 0, 0, 0, 0, 0, 0, 0],
    [1, 0, 0, 0, 0, 0, 0, 0] ]

/-- The forest after observing the twenty `bugPool` vectors (pool below
every auto-retrain threshold, so still untrained). -/
def bugForestPre : IsolationForest :=
  { trees := [], trainingData := bugPool, trained := false }

/-- The forest after an explicit `train()` with the oracles above. -/
def bugForest : IsolationForest := (train idShuffle rndZero 0 bugForestPre).1

/-! ## Theorems -/

/-- Invariant of reachable simulator states: the three written histories
have equal lengths, capped at 300, and the attitude history stays empty. -/
theorem simReachable_inv (st : TelemetrySimulator) (h : SimReachable st) :
    st.dataHistoryPower.length ≤ 300 ∧
    st.dataHistoryThermal.length = st.dataHistoryPower.length ∧
    st.dataHistoryCommunication.length = st.dataHistoryPower.length ∧
    st.dataHistoryAttitude = [] := by
  induction h with
  | init => simp [simInit]
  | tick st pt _ ih =>
    obtain ⟨h1, h2, h3, h4⟩ := ih
    unfold generateTelemetryPoint
    by_cases hc : 300 < (st.dataHistoryPower ++ [pt]).length
    · simp only [if_pos hc]
      simp only [List.length_append, List.length_singleton] at hc ⊢
      constructor
      · simp [List.length_tail]; omega
      · refine ⟨?_, ?_, h4⟩ <;> simp [List.length_tail] <;> omega
    · simp only [if_neg hc]
      simp only [List.length_append, List.length_singleton] at hc ⊢
      exact ⟨by omega, by omega, by omega, h4⟩
  | inject st s now _ ih => simpa [simulateFailure] using ih
  | clear st s _ ih => simpa [clearFailure] using ih
  | fire st s t _ ih => simpa [firePendingClear, clearFailure] using ih

theorem lookup_setFlag_self (l : List (String × Bool)) (k : String) (v : Bool) :
    (setFlag l k v).lookup k = some v := by
  induction l with
  | nil => simp [setFlag, List.lookup]
  | cons p rest ih =>
    obtain ⟨a, b⟩ := p
    by_cases h : a = k
    · subst h
      simp [setFlag, List.lookup]
    · have hne : (k == a) = false := beq_eq_false_iff_ne.mpr (Ne.symm h)
      simp [setFlag, if_neg h, List.lookup, hne, ih]

theorem lookup_setFlag_other (l : List (String × Bool)) (k k' : String) (v : Bool)
    (h : k' ≠ k) : (setFlag l k v).lookup k' = l.lookup k' := by
  induction l with
  | nil =>
    have hne : (k' == k) = false := beq_eq_false_iff_ne.mpr h
    simp [setFlag, List.lookup, hne]
  | cons p rest ih =>
    obtain ⟨a, b⟩ := p
    by_cases hp : a = k
    · subst hp
      have hne : (k' == a) = false := beq_eq_false_iff_ne.mpr h
      simp [setFlag, List.lookup, hne]
    · by_cases hk : k' = a
      · subst hk
        simp [setFlag, if_neg hp, List.lookup]
      · have hne : (k' == a) = false := beq_eq_false_iff_ne.mpr hk
        simp [setFlag, if_neg hp, List.lookup, hne, ih]

/-- C3.  `getBatteryStatus(v, t, c)` is a pure function of its three
arguments: it returns `critical` iff `v < 20 ∨ t > 45 ∨ c < 60`, otherwise
`warning` iff `v < 22 ∨ t > 35 ∨ c < 80`, otherwise `normal`. -/
theorem getBatteryStatus_spec (v t c : ℚ) :
    (getBatteryStatus v t c = .critical ↔ v < 20 ∨ 45 < t ∨ c < 60) ∧
    (getBatteryStatus v t c = .warning ↔
      ¬(v < 20 ∨ 45 < t ∨ c < 60) ∧ (v < 22 ∨ 35 < t ∨ c < 80)) ∧
    (getBatteryStatus v t c = .normal ↔
      ¬(v < 20 ∨ 45 < t ∨ c < 60) ∧ ¬(v < 22 ∨ 35 < t ∨ c < 80)) := by
  unfold getBatteryStatus
  split_ifs with h1 h2
  · exact ⟨⟨fun _ => by tauto, fun _ => rfl⟩,
      ⟨fun hh => absurd hh (by decide),
        fun hhh => absurd (show v < 20 ∨ 45 < t ∨ c < 60 by tauto) hhh.1⟩,
      ⟨fun hh => absurd hh (by decide),
        fun hhh => absurd (show v < 20 ∨ 45 < t ∨ c < 60 by tauto) hhh.1⟩⟩
  · exact ⟨⟨fun hh => absurd hh (by decide),
        fun hhh => absurd (show 45 < t ∨ v < 20 ∨ c < 60 by tauto) h1⟩,
      ⟨fun _ => ⟨by tauto, by tauto⟩, fun _ => rfl⟩,
      ⟨fun hh => absurd hh (by decide),
        fun hhh => absurd (show v < 22 ∨ 35 < t ∨ c < 80 by tauto) hhh.2⟩⟩
  · exact ⟨⟨fun hh => absurd hh (by decide),
        fun hhh => absurd (show 45 < t ∨ v < 20 ∨ c < 60 by tauto) h1⟩,
      ⟨fun hh => absurd hh (by decide),
        fun hhh => absurd (show 35 < t ∨ v < 22 ∨ c < 80 by tauto) h2⟩,
      ⟨fun _ => ⟨by tauto, by tauto⟩, fun _ => rfl⟩⟩

/-- C9 counterexample.  At the reachable freshly constructed simulator, one
tick does not append the new sample to the attitude history: that history
is never written. -/
theorem attitudeHistory_not_appended :
    (generateTelemetryPoint simInit 1).dataHistoryAttitude ≠
      simInit.dataHistoryAttitude ++ [1] := by decide

/-- C9 amended.  Each tick appends the new sample to the power, thermal and
communication rolling histories, evicting the oldest entry once a history
holds 300 points; the attitude history is left untouched (it stays empty,
since `generateTelemetryPoint` never writes it). -/
theorem telemetryHistory_append_evict (st : TelemetrySimulator) (h : SimReachable st)
    (pt : ℕ) :
    (generateTelemetryPoint st pt).dataHistoryPower.getLast? = some pt ∧
    (generateTelemetryPoint st pt).dataHistoryThermal.getLast? = some pt ∧
    (generateTelemetryPoint st pt).dataHistoryCommunication.getLast? = some pt ∧
    (generateTelemetryPoint st pt).dataHistoryPower.length
      = min (st.dataHistoryPower.length + 1) 300 ∧
    (generateTelemetryPoint st pt).dataHistoryThermal.length
      = min (st.dataHistoryThermal.length + 1) 300 ∧
    (generateTelemetryPoint st pt).dataHistoryCommunication.length
      = min (st.dataHistoryCommunication.length + 1) 300 ∧
    List.IsSuffix (generateTelemetryPoint st pt).dataHistoryPower
      (st.dataHistoryPower ++ [pt]) ∧
    List.IsSuffix (generateTelemetryPoint st pt).dataHistoryThermal
      (st.dataHistoryThermal ++ [pt]) ∧
    List.IsSuffix (generateTelemetryPoint st pt).dataHistoryCommunication
      (st.dataHistoryCommunication ++ [pt]) ∧
    (generateTelemetryPoint st pt).dataHistoryAttitude = st.dataHistoryAttitude := by
  obtain ⟨hcap, hth, hco, hatt⟩ := simReachable_inv st h
  obtain ⟨P, T, C, A, F, Pc⟩ := st
  simp only at hcap hth hco hatt ⊢
  subst hatt
  by_cases hful : 300 < (P ++ [pt]).length
  · simp only [generateTelemetryPoint, if_pos hful]
    simp only [List.length_append, List.length_singleton] at hful
    have hp : P.length = 300 := by omega
    obtain ⟨a, as, rfl⟩ : ∃ a as, P = a :: as := by
      cases P with
      | nil => simp at hp
      | cons a as => exact ⟨a, as, rfl⟩
    obtain ⟨b, bs, rfl⟩ : ∃ b bs, T = b :: bs := by
      cases T with
      | nil => exact absurd (hth.trans hp) (by decide)
      | cons b bs => exact ⟨b, bs, rfl⟩
    obtain ⟨d, ds, rfl⟩ : ∃ d ds, C = d :: ds := by
      cases C with
      | nil => exact absurd (hco.trans hp) (by decide)
      | cons d ds => exact ⟨d, ds, rfl⟩
    simp only [List.cons_append, List.tail_cons]
    refine ⟨List.getLast?_concat _, List.getLast?_concat _, List.getLast?_concat _,
      ?_, ?_, ?_, List.suffix_cons a _, List.suffix_cons b _, List.suffix_cons d _,
      by trivial⟩
      <;> simp only [List.length_append, List.length_singleton, List.length_cons,
        List.length_nil] at hp hth hco ⊢
      <;> omega
  · simp only [generateTelemetryPoint, if_neg hful]
    simp only [List.length_append, List.length_singleton] at hful
    refine ⟨List.getLast?_concat _, List.getLast?_concat _, List.getLast?_concat _,
      ?_, ?_, ?_, List.suffix_refl _, List.suffix_refl _, List.suffix_refl _,
      by trivial⟩
      <;> simp only [List.length_append, List.length_singleton, List.length_cons,
        List.length_nil] at hth hco ⊢
      <;> omega

/-- C9 amended, witness at the freshly constructed simulator. -/
theorem telemetryHistory_append_evict_witness :
    (generateTelemetryPoint simInit 7).dataHistoryPower.getLast? = some 7 ∧
    (generateTelemetryPoint simInit 7).dataHistoryThermal.getLast? = some 7 ∧
    (generateTelemetryPoint simInit 7).dataHistoryCommunication.getLast? = some 7 ∧
    (generateTelemetryPoint simInit 7).dataHistoryPower.length
      = min (simInit.dataHistoryPower.length + 1) 300 ∧
    (generateTelemetryPoint simInit 7).dataHistoryThermal.length
      = min (simInit.dataHistoryThermal.length + 1) 300 ∧
    (generateTelemetryPoint simInit 7).dataHistoryCommunication.length
      = min (simInit.dataHistoryCommunication.length + 1) 300 ∧
    List.IsSuffix (generateTelemetryPoint simInit 7).dataHistoryPower
      (simInit.dataHistoryPower ++ [7]) ∧
    List.IsSuffix (generateTelemetryPoint simInit 7).dataHistoryThermal
      (simInit.dataHistoryThermal ++ [7]) ∧
    List.IsSuffix (generateTelemetryPoint simInit 7).dataHistoryCommunication
      (simInit.dataHistoryCommunication ++ [7]) ∧
    (generateTelemetryPoint simInit 7).dataHistoryAttitude
      = simInit.dataHistoryAttitude :=
  telemetryHistory_append_evict simInit SimReachable.init 7

/-- C7 counterexample.  `injectFault('propulsion')` at the freshly
constructed simulator is not ignored: it mutates the fault-injection map
(JS property assignment creates the unknown key). -/
theorem injectFault_unknown_counterexample :
    (simulateFailure simInit "propulsion" 0).simulatedFailures ≠
      simInit.simulatedFailures := by decide

/-- C7 amended.  `injectFault` on a subsystem name outside
`{battery, solar, thermal, communication}` does not crash and leaves the
four known fault flags and the telemetry histories unchanged, but it is
not fully ignored: it appends an entry `s ↦ true` to the fault map and
arms a 30-second clear timer for it. -/
theorem injectFault_unknown_subsystem (st : TelemetrySimulator) (s : String) (now : ℤ)
    (hb : s ≠ "battery") (hs : s ≠ "solar") (ht : s ≠ "thermal")
    (hc : s ≠ "communication") :
    (simulateFailure st s now).simulatedFailures.lookup "battery"
      = st.simulatedFailures.lookup "battery" ∧
    (simulateFailure st s now).simulatedFailures.lookup "solar"
      = st.simulatedFailures.lookup "solar" ∧
    (simulateFailure st s now).simulatedFailures.lookup "thermal"
      = st.simulatedFailures.lookup "thermal" ∧
    (simulateFailure st s now).simulatedFailures.lookup "communication"
      = st.simulatedFailures.lookup "communication" ∧
    (simulateFailure st s now).simulatedFailures.lookup s = some true ∧
    (simulateFailure st s now).pendingClears = st.pendingClears ++ [(s, now + 30000)] ∧
    (simulateFailure st s now).dataHistoryPower = st.dataHistoryPower ∧
    (simulateFailure st s now).dataHistoryThermal = st.dataHistoryThermal ∧
    (simulateFailure st s now).dataHistoryCommunication = st.dataHistoryCommunication ∧
    (simulateFailure st s now).dataHistoryAttitude = st.dataHistoryAttitude := by
  refine ⟨lookup_setFlag_other _ _ _ _ (Ne.symm hb), lookup_setFlag_other _ _ _ _ (Ne.symm hs),
    lookup_setFlag_other _ _ _ _ (Ne.symm ht), lookup_setFlag_other _ _ _ _ (Ne.symm hc),
    lookup_setFlag_self _ _ _, rfl, rfl, rfl, rfl, rfl⟩

/-- C7 amended, witness at subsystem name `propulsion`. -/
theorem injectFault_unknown_subsystem_witness :
    (simulateFailure simInit "propulsion" 0).simulatedFailures.lookup "battery"
      = simInit.simulatedFailures.lookup "battery" ∧
    (simulateFailure simInit "propulsion" 0).simulatedFailures.lookup "solar"
      = simInit.simulatedFailures.lookup "solar" ∧
    (simulateFailure simInit "propulsion" 0).simulatedFailures.lookup "thermal"
      = simInit.simulatedFailures.lookup "thermal" ∧
    (simulateFailure simInit "propulsion" 0).simulatedFailures.lookup "communication"
      = simInit.simulatedFailures.lookup "communication" ∧
    (simulateFailure simInit "propulsion" 0).simulatedFailures.lookup "propulsion"
      = some true ∧
    (simulateFailure simInit "propulsion" 0).pendingClears
      = simInit.pendingClears ++ [("propulsion", 0 + 30000)] ∧
    (simulateFailure simInit "propulsion" 0).dataHistoryPower
      = simInit.dataHistoryPower ∧
    (simulateFailure simInit "propulsion" 0).dataHistoryThermal
      = simInit.dataHistoryThermal ∧
    (simulateFailure simInit "propulsion" 0).dataHistoryCommunication
      = simInit.dataHistoryCommunication ∧
    (simulateFailure simInit "propulsion" 0).dataHistoryAttitude
      = simInit.dataHistoryAttitude :=
  injectFault_unknown_subsystem simInit "propulsion" 0 (by decide) (by decide)
    (by decide) (by decide)

/-- C8 counterexample.  Two injections on `battery` 20 s apart leave two
pending fault-clear timers for that subsystem, not at most one: the source
never stores or cancels a timer handle. -/
theorem faultTimer_duplicate_counterexample :
    (((simulateFailure (simulateFailure simInit "battery" 0) "battery" 20000).pendingClears).filter
        (fun p => p.1 = "battery")).length = 2 := by decide

/-- C8 amended.  Every `injectFault` call arms its own 30-second one-shot
clear timer and no timer is ever cancelled, so overlapping injections on
one subsystem coexist as multiple pending timers; the timer armed by the
first injection still fires 30 s after that injection and clears the
subsystem's flag even though the second activation is still inside its own
30-second window. -/
theorem faultTimer_no_cancellation :
    (∀ (st : TelemetrySimulator) (s : String) (now : ℤ),
      (simulateFailure st s now).pendingClears = st.pendingClears ++ [(s, now + 30000)] ∧
      (simulateFailure st s now).simulatedFailures.lookup s = some true) ∧
    (∀ t₁ t₂ : ℤ, t₁ < t₂ → t₂ < t₁ + 30000 →
      (((simulateFailure (simulateFailure simInit "battery" t₁) "battery" t₂).pendingClears).filter
          (fun p => p.1 = "battery")).length = 2 ∧
      (firePendingClear (simulateFailure (simulateFailure simInit "battery" t₁) "battery" t₂)
          "battery" (t₁ + 30000)).simulatedFailures.lookup "battery" = some false ∧
      t₁ + 30000 < t₂ + 30000) := by
  constructor
  · intro st s now
    exact ⟨rfl, lookup_setFlag_self _ _ _⟩
  · intro t₁ t₂ h1 h2
    refine ⟨?_, ?_, by omega⟩
    · simp [simulateFailure, simInit]
    · simp [firePendingClear, clearFailure, simulateFailure, simInit, setFlag, List.lookup]

/-- C8 amended, witness: injections at `t = 0` ms and `t = 20000` ms. -/
theorem faultTimer_no_cancellation_witness :
    ((simulateFailure simInit "battery" 5).pendingClears
        = simInit.pendingClears ++ [("battery", 5 + 30000)] ∧
      (simulateFailure simInit "battery" 5).simulatedFailures.lookup "battery"
        = some true) ∧
    ((((simulateFailure (simulateFailure simInit "battery" 0) "battery" 20000).pendingClears).filter
        (fun p => p.1 = "battery")).length = 2 ∧
      (firePendingClear (simulateFailure (simulateFailure simInit "battery" 0) "battery" 20000)
          "battery" (0 + 30000)).simulatedFailures.lookup "battery" = some false ∧
      (0 : ℤ) + 30000 < 20000 + 30000) :=
  ⟨faultTimer_no_cancellation.1 simInit "battery" 5,
    faultTimer_no_cancellation.2 0 20000 (by decide) (by decide)⟩

theorem sigOf_eq_iff {x a : Alert} : sigOf x = sigOf a ↔
    x.subsystem = a.subsystem ∧ x.parameter = a.parameter ∧
    x.type = a.type ∧ x.severity = a.severity := by
  simp [sigOf, Prod.ext_iff]

theorem sigOf_mkAlert (d : Detection) (now : ℤ) : sigOf (mkAlert d now) = sigOfD d := rfl

theorem isDuplicateAnomaly_eq_false {l : List Alert} {now : ℤ} {a : Alert} :
    isDuplicateAnomaly l now a = false ↔
      ∀ x ∈ l, sigOf x = sigOf a → 30000 ≤ now - x.timestamp := by
  unfold isDuplicateAnomaly
  rw [List.any_eq_false]
  constructor
  · intro h x hx hsig
    rcases sigOf_eq_iff.mp hsig with ⟨h1, h2, h3, h4⟩
    by_contra hlt
    push_neg at hlt
    exact h x (List.mem_filter.mpr ⟨hx, by simp [hlt]⟩) (by simp [h1, h2, h3, h4])
  · intro h x hxf hp
    obtain ⟨hx, hrec⟩ := List.mem_filter.mp hxf
    simp only [decide_eq_true_eq] at hp hrec
    obtain ⟨h1, h2, h3, h4⟩ := hp
    have := h x hx (sigOf_eq_iff.mpr ⟨h1, h2, h3, h4⟩)
    omega

/-- The 30-second pairwise separation of structurally identical active
alerts. -/
def DedupSeparated (s : AnomalyDetectorState) : Prop :=
  s.anomalies.Pairwise
    (fun a b => sigOf a = sigOf b → 30000 ≤ |a.timestamp - b.timestamp|)

theorem dedupSep_insert (now : ℤ) (s : AnomalyDetectorState) (d : Detection)
    (h : DedupSeparated s) : DedupSeparated (insertAnomaly now s d) := by
  unfold insertAnomaly
  by_cases hdup : isDuplicateAnomaly s.anomalies now (mkAlert d now) = true
  · simpa [hdup] using h
  · have hfalse : isDuplicateAnomaly s.anomalies now (mkAlert d now) = false := by
      simpa using hdup
    rw [if_neg (by simp [hfalse])]
    unfold DedupSeparated at h ⊢
    rw [List.pairwise_append]
    refine ⟨h, List.pairwise_singleton _ _, ?_⟩
    intro x hx y hy hsig
    rw [List.mem_singleton] at hy
    subst hy
    have h30 := isDuplicateAnomaly_eq_false.mp hfalse x hx hsig
    calc (30000 : ℤ) ≤ now - x.timestamp := h30
      _ ≤ |now - x.timestamp| := le_abs_self _
      _ = |x.timestamp - (mkAlert d now).timestamp| := by
          rw [abs_sub_comm]; rfl

theorem dedupSep_foldl (now : ℤ) (batch : List Detection) :
    ∀ s : AnomalyDetectorState, DedupSeparated s →
      DedupSeparated (batch.foldl (insertAnomaly now) s) := by
  induction batch with
  | nil => intro s h; simpa using h
  | cons d rest ih => intro s h; exact ih _ (dedupSep_insert now s d h)

theorem dedupSep_cleanup (now : ℤ) (s : AnomalyDetectorState)
    (h : DedupSeparated s) : DedupSeparated (cleanupOldAnomalies now s) :=
  List.Pairwise.sublist (List.filter_sublist _) h

theorem detReachable_dedupSep (s : AnomalyDetectorState) (h : DetReachable s) :
    DedupSeparated s := by
  induction h with
  | init => exact List.Pairwise.nil
  | tick s batch now _ ih =>
    unfold processTelemetryStep
    by_cases hb : batch.isEmpty = true
    · simpa [hb] using ih
    · rw [if_neg (by simp [hb])]
      unfold processDetectedAnomalies
      have h2 := dedupSep_cleanup now _ (dedupSep_foldl now batch s ih)
      by_cases ht :
          1000 < (cleanupOldAnomalies now (batch.foldl (insertAnomaly now) s)).anomalyHistory.length
      · simpa [ht, DedupSeparated] using h2
      · simpa [ht, DedupSeparated] using h2
  | ack s aid who now _ ih =>
    unfold acknowledgeAnomaly
    cases hf : s.anomalies.find? (fun a => a.id = aid) with
    | some a => exact List.Pairwise.sublist (List.filter_sublist _) ih
    | none => exact ih

theorem filter_filter_of_imp {α : Type} (l : List α) (p q : α → Bool)
    (h : ∀ x ∈ l, p x = true → q x = true) :
    (l.filter q).filter p = l.filter p := by
  induction l with
  | nil => rfl
  | cons x xs ih =>
    have ih' := ih fun y hy => h y (List.mem_cons_of_mem _ hy)
    by_cases hq : q x = true
    · by_cases hp : p x = true
      · simp [List.filter_cons, hq, hp, ih']
      · simp [List.filter_cons, hq, hp, ih']
    · have hp : ¬ p x = true := fun hpx => hq (h x (List.mem_cons_self _ _) hpx)
      simp [List.filter_cons, hq, hp, ih']

/-- C4.  For every reachable detector state, no two active alerts with
identical `(subsystem, parameter, kind, severity)` were detected within
30 s of each other; and submitting one more structurally identical
detection while the (unique) matching active alert is inside the 30 s
window leaves exactly one matching active alert. -/
theorem alert_dedup_invariant :
    (∀ s : AnomalyDetectorState, DetReachable s →
      (getActiveAnomalies s).Pairwise
        (fun a b => sigOf a = sigOf b → 30000 ≤ |a.timestamp - b.timestamp|)) ∧
    (∀ (s : AnomalyDetectorState) (d : Detection) (now : ℤ), DetReachable s →
      (s.anomalies.filter (fun a => sigOf a = sigOfD d)).length = 1 →
      (∀ a ∈ s.anomalies, sigOf a = sigOfD d → now - a.timestamp < 30000) →
      ((processTelemetryStep s [d] now).anomalies.filter
          (fun a => sigOf a = sigOfD d)).length = 1) := by
  constructor
  · intro s h
    exact List.Pairwise.sublist (List.filter_sublist _) (detReachable_dedupSep s h)
  · intro s d now _ hcount hrecent
    obtain ⟨x, hx1⟩ := List.length_eq_one.mp hcount
    have hxf : x ∈ s.anomalies.filter (fun a => sigOf a = sigOfD d) := by
      rw [hx1]
      exact List.mem_cons_self _ _
    obtain ⟨hxmem, hxsig⟩ := List.mem_filter.mp hxf
    rw [decide_eq_true_eq] at hxsig
    have hdup : isDuplicateAnomaly s.anomalies now (mkAlert d now) = true := by
      unfold isDuplicateAnomaly
      rw [List.any_eq_true]
      refine ⟨x, List.mem_filter.mpr ⟨hxmem, by simp [hrecent x hxmem hxsig]⟩, ?_⟩
      rcases sigOf_eq_iff.mp (hxsig.trans (sigOf_mkAlert d now).symm)
        with ⟨h1, h2, h3, h4⟩
      simp [h1, h2, h3, h4]
    unfold processTelemetryStep
    rw [if_neg (by simp)]
    unfold processDetectedAnomalies
    simp only [List.foldl_cons, List.foldl_nil]
    rw [show insertAnomaly now s d = s by unfold insertAnomaly; rw [if_pos (by simp [hdup])]]
    have hcomm :
        (cleanupOldAnomalies now s).anomalies.filter (fun a => sigOf a = sigOfD d)
          = s.anomalies.filter (fun a => sigOf a = sigOfD d) := by
      unfold cleanupOldAnomalies
      exact filter_filter_of_imp s.anomalies _ _ fun y hy hpy => by
        rw [decide_eq_true_eq] at hpy
        have := hrecent y hy hpy
        simp
        omega
    by_cases ht : 1000 < (cleanupOldAnomalies now s).anomalyHistory.length
    · rw [if_pos ht]
      simpa [hcomm] using hcount
    · rw [if_neg ht]
      simpa [hcomm] using hcount

/-- C4, witness: one threshold alert at `t = 0`; an identical detection at
`t = 10000` (inside the 30 s window) leaves exactly one matching active
alert, and the reachable one-alert state satisfies the pairwise
separation. -/
theorem alert_dedup_invariant_witness :
    (getActiveAnomalies detStateOne).Pairwise
      (fun a b => sigOf a = sigOf b → 30000 ≤ |a.timestamp - b.timestamp|) ∧
    ((processTelemetryStep detStateOne [sampleDetection2] 10000).anomalies.filter
        (fun a => sigOf a = sigOfD sampleDetection2)).length = 1 :=
  ⟨alert_dedup_invariant.1 detStateOne
      (DetReachable.tick detInit [sampleDetection1] 0 DetReachable.init),
    alert_dedup_invariant.2 detStateOne sampleDetection2 10000
      (DetReachable.tick detInit [sampleDetection1] 0 DetReachable.init)
      (by decide) (by decide)⟩

theorem foldl_insert_appends (now : ℤ) (batch : List Detection) :
    ∀ s : AnomalyDetectorState,
      ∃ n1 n2 : List Alert,
        (batch.foldl (insertAnomaly now) s).anomalies = s.anomalies ++ n1 ∧
        (batch.foldl (insertAnomaly now) s).anomalyHistory = s.anomalyHistory ++ n2 ∧
        n2.length ≤ batch.length := by
  induction batch with
  | nil => exact fun s => ⟨[], [], by simp⟩
  | cons d rest ih =>
    intro s
    rw [List.foldl_cons]
    obtain ⟨n1, n2, h1, h2, hl⟩ := ih (insertAnomaly now s d)
    by_cases hdup : isDuplicateAnomaly s.anomalies now (mkAlert d now) = true
    · have hins : insertAnomaly now s d = s := by
        unfold insertAnomaly
        rw [if_pos (by simp [hdup])]
      rw [hins] at h1 h2
      rw [hins]
      exact ⟨n1, n2, h1, h2, by simpa using Nat.le_succ_of_le hl⟩
    · have hins : (insertAnomaly now s d).anomalies = s.anomalies ++ [mkAlert d now] ∧
          (insertAnomaly now s d).anomalyHistory = s.anomalyHistory ++ [mkAlert d now] := by
        unfold insertAnomaly
        rw [if_neg (by simpa using hdup)]
        exact ⟨rfl, rfl⟩
      rw [hins.1] at h1
      rw [hins.2] at h2
      refine ⟨[mkAlert d now] ++ n1, [mkAlert d now] ++ n2, ?_, ?_, ?_⟩
      · rw [h1, List.append_assoc]
      · rw [h2, List.append_assoc]
      · simp only [List.length_append, List.length_cons, List.length_nil]
        omega

/-- C5 counterexample.  A reachable state holds one unacknowledged alert
detected at `t = 0`; the tick processed at `t = 301000` ms (more than 5
minutes later) detects nothing, so `cleanupOldAnomalies` never runs and
the expired alert is still returned by `getActiveAnomalies()`. -/
theorem autoAcknowledge_missed_on_quiet_tick :
    mkAlert sampleDetection1 0 ∈
      getActiveAnomalies (processTelemetryStep detStateOne [] 301000) ∧
    300000 < 301000 - (mkAlert sampleDetection1 0).timestamp ∧
    (mkAlert sampleDetection1 0).acknowledged = false := by decide

/-- C5 amended.  An alert never manually acknowledged is auto-acknowledged
and dropped from the active set by the first subsequent tick that detected
at least one anomaly (only such ticks run the cleanup sweep) once more
than 5 minutes have passed since its detection; it remains in
`alertHistory` — marked auto-acknowledged — provided the history's
1000-entry cap has not evicted it. -/
theorem autoAcknowledge_on_detecting_tick (s : AnomalyDetectorState) (a : Alert)
    (batch : List Detection) (now : ℤ)
    (ha : a ∈ s.anomalies) (hh : a ∈ s.anomalyHistory)
    (hold : 300000 < now - a.timestamp)
    (hne : batch ≠ [])
    (hcap : s.anomalyHistory.length + batch.length ≤ 1000) :
    a ∉ getActiveAnomalies (processTelemetryStep s batch now) ∧
    a ∉ (processTelemetryStep s batch now).anomalies ∧
    autoAcknowledge now a ∈ (processTelemetryStep s batch now).anomalyHistory := by
  have hbe : batch.isEmpty = false := by
    cases batch with
    | nil => exact absurd rfl hne
    | cons d ds => rfl
  unfold processTelemetryStep
  rw [if_neg (by simp [hbe])]
  unfold processDetectedAnomalies
  obtain ⟨n1, n2, he1, he2, hlen⟩ := foldl_insert_appends now batch s
  have ha1 : a ∈ (batch.foldl (insertAnomaly now) s).anomalies := by
    rw [he1]; exact List.mem_append_left _ ha
  have hh1 : a ∈ (batch.foldl (insertAnomaly now) s).anomalyHistory := by
    rw [he2]; exact List.mem_append_left _ hh
  have ha2 : a ∉ (cleanupOldAnomalies now (batch.foldl (insertAnomaly now) s)).anomalies := by
    intro hmem
    have := (List.mem_filter.mp hmem).2
    simp [hold] at this
  have hmap : autoAcknowledge now a ∈
      (cleanupOldAnomalies now (batch.foldl (insertAnomaly now) s)).anomalyHistory := by
    unfold cleanupOldAnomalies
    refine List.mem_map.mpr ⟨a, hh1, ?_⟩
    have hany : ((batch.foldl (insertAnomaly now) s).anomalies.filter
        (fun x => 300000 < now - x.timestamp)).any (fun r => r.id = a.id) = true := by
      rw [List.any_eq_true]
      exact ⟨a, List.mem_filter.mpr ⟨ha1, by simp [hold]⟩, by simp⟩
    rw [if_pos (by simp only [hany])]
  have hlen2 :
      ¬ 1000 < (cleanupOldAnomalies now (batch.foldl (insertAnomaly now) s)).anomalyHistory.length := by
    unfold cleanupOldAnomalies
    simp only [List.length_map]
    rw [he2]
    simp only [List.length_append]
    omega
  rw [if_neg hlen2]
  refine ⟨?_, ha2, hmap⟩
  intro hact
  exact ha2 (List.mem_filter.mp hact).1

/-- C5 amended, witness: the expired alert from `t = 0` is swept by a
detecting tick at `t = 301000`. -/
theorem autoAcknowledge_on_detecting_tick_witness :
    mkAlert sampleDetection1 0 ∉
      getActiveAnomalies (processTelemetryStep detStateOne [sampleDetection2] 301000) ∧
    mkAlert sampleDetection1 0 ∉
      (processTelemetryStep detStateOne [sampleDetection2] 301000).anomalies ∧
    autoAcknowledge 301000 (mkAlert sampleDetection1 0) ∈
      (processTelemetryStep detStateOne [sampleDetection2] 301000).anomalyHistory :=
  autoAcknowledge_on_detecting_tick detStateOne (mkAlert sampleDetection1 0)
    [sampleDetection2] 301000 (by decide) (by decide) (by decide) (by decide) (by decide)

/-- C10.  `acknowledgeAnomaly(id, by)` with an id matching no active alert
returns false and changes nothing; with a matching id it returns true,
filters exactly the alerts with that id out of the active set and records
the acknowledgement on the alert (visible through the aliased history
entries). -/
theorem acknowledge_spec (s : AnomalyDetectorState) (anomalyId who : String) (now : ℤ) :
    ((∀ a ∈ s.anomalies, a.id ≠ anomalyId) →
      acknowledgeAnomaly s anomalyId who now = (false, s)) ∧
    ((∃ a ∈ s.anomalies, a.id = anomalyId) →
      (acknowledgeAnomaly s anomalyId who now).1 = true ∧
      (acknowledgeAnomaly s anomalyId who now).2.anomalies
        = s.anomalies.filter (fun b => b.id ≠ anomalyId) ∧
      (∀ b ∈ (acknowledgeAnomaly s anomalyId who now).2.anomalies, b.id ≠ anomalyId) ∧
      (∀ b ∈ s.anomalyHistory, b.id = anomalyId →
        { b with
            acknowledged := true
            acknowledgedAt := some now
            acknowledgedBy := some who } ∈
          (acknowledgeAnomaly s anomalyId who now).2.anomalyHistory)) := by
  constructor
  · intro h
    have hf : s.anomalies.find? (fun a => a.id = anomalyId) = none := by
      rw [List.find?_eq_none]
      intro x hx
      simpa using h x hx
    unfold acknowledgeAnomaly
    rw [hf]
  · rintro ⟨a, ha, haid⟩
    have hf : (s.anomalies.find? (fun a => a.id = anomalyId)).isSome := by
      rw [List.find?_isSome]
      exact ⟨a, ha, by simp [haid]⟩
    obtain ⟨x, hx⟩ := Option.isSome_iff_exists.mp hf
    unfold acknowledgeAnomaly
    rw [hx]
    refine ⟨rfl, rfl, ?_, ?_⟩
    · intro b hb
      have := (List.mem_filter.mp hb).2
      simpa using this
    · intro b hb hbid
      exact List.mem_map.mpr ⟨b, hb, by rw [if_pos hbid]⟩

/-- C10, witness: an unmatched id is a no-op returning false; the matching
id `a1` returns true, empties the one-alert active set and records the
acknowledgement in the history. -/
theorem acknowledge_spec_witness :
    (acknowledgeAnomaly detStateOne "zzz" "operator" 5 = (false, detStateOne)) ∧
    ((acknowledgeAnomaly detStateOne "a1" "operator" 5).1 = true ∧
      (acknowledgeAnomaly detStateOne "a1" "operator" 5).2.anomalies
        = detStateOne.anomalies.filter (fun b => b.id ≠ "a1") ∧
      (∀ b ∈ (acknowledgeAnomaly detStateOne "a1" "operator" 5).2.anomalies,
        b.id ≠ "a1") ∧
      (∀ b ∈ detStateOne.anomalyHistory, b.id = "a1" →
        { b with
            acknowledged := true
            acknowledgedAt := some 5
            acknowledgedBy := some "operator" } ∈
          (acknowledgeAnomaly detStateOne "a1" "operator" 5).2.anomalyHistory)) :=
  ⟨(acknowledge_spec detStateOne "zzz" "operator" 5).1 (by decide),
    (acknowledge_spec detStateOne "a1" "operator" 5).2
      ⟨mkAlert sampleDetection1 0, by decide, by decide⟩⟩

theorem updateStatistics_dataPoints (m : StatisticalModel) :
    (updateStatistics m).dataPoints = m.dataPoints := by
  unfold updateStatistics
  split <;> rfl

theorem addDataPoint_stats (m : StatisticalModel) (x : ℚ)
    (hlen : 10 ≤ (addDataPoint m x).dataPoints.length) :
    (addDataPoint m x).mean = listMean (addDataPoint m x).dataPoints ∧
    (addDataPoint m x).variance = listPopVariance (addDataPoint m x).dataPoints := by
  rw [show addDataPoint m x = updateStatistics
      { m with dataPoints :=
          if 100 < (m.dataPoints ++ [x]).length then (m.dataPoints ++ [x]).tail
          else m.dataPoints ++ [x] } from rfl] at hlen ⊢
  rw [updateStatistics_dataPoints] at hlen ⊢
  unfold updateStatistics
  rw [if_neg (by omega)]
  exact ⟨rfl, rfl⟩

theorem foldl_addDataPoint_stats (vs : List ℚ)
    (hlen : 10 ≤ (List.foldl addDataPoint statInit vs).dataPoints.length) :
    (List.foldl addDataPoint statInit vs).mean
      = listMean (List.foldl addDataPoint statInit vs).dataPoints ∧
    (List.foldl addDataPoint statInit vs).variance
      = listPopVariance (List.foldl addDataPoint statInit vs).dataPoints := by
  induction vs using List.reverseRecOn with
  | nil => simp [statInit] at hlen
  | append_singleton l x ih =>
    rw [List.foldl_append, List.foldl_cons, List.foldl_nil] at hlen ⊢
    exact addDataPoint_stats _ x hlen

/-- C1.  For every reachable `StatisticalModel` state and query value: with
fewer than 20 samples or a zero standard deviation the score is `0`; else
it is exactly `min(0.999, max(0, (z - 1) / 2))` where
`z = |value - mean| / stddev` is computed from the windowed mean and the
windowed population standard deviation. -/
theorem statisticalModel_score_spec (vs : List ℚ) (value : ℚ) :
    ((List.foldl addDataPoint statInit vs).dataPoints.length < 20 ∨
        statStdDev (List.foldl addDataPoint statInit vs) = 0 →
      calculateAnomalyScore (List.foldl addDataPoint statInit vs) value = 0) ∧
    (20 ≤ (List.foldl addDataPoint statInit vs).dataPoints.length →
      statStdDev (List.foldl addDataPoint statInit vs) ≠ 0 →
      calculateAnomalyScore (List.foldl addDataPoint statInit vs) value =
        min 0.999 (max 0
          ((|(value : ℝ) -
                ((listMean (List.foldl addDataPoint statInit vs).dataPoints : ℚ) : ℝ)| /
              Real.sqrt
                ((listPopVariance (List.foldl addDataPoint statInit vs).dataPoints : ℚ) : ℝ)
            - 1) / 2))) := by
  set m := List.foldl addDataPoint statInit vs with hm
  constructor
  · intro h
    unfold calculateAnomalyScore
    rw [if_neg]
    rcases h with h | h
    · exact fun hc => absurd hc.1 (by omega)
    · exact fun hc => absurd hc.2 (by rw [h]; exact lt_irrefl 0)
  · intro h20 hσ
    have hpos : 0 < statStdDev m := lt_of_le_of_ne (Real.sqrt_nonneg _) (Ne.symm hσ)
    obtain ⟨hmean, hvar⟩ := foldl_addDataPoint_stats vs (by rw [← hm]; omega)
    rw [← hm] at hmean hvar
    unfold calculateAnomalyScore
    rw [if_pos ⟨h20, hpos⟩]
    show min 0.999 (max 0
        ((|((value : ℝ) - (m.mean : ℝ)) / statStdDev m| - 1) / 2)) = _
    rw [abs_div, abs_of_pos hpos]
    unfold statStdDev
    rw [hmean, hvar]

set_option maxRecDepth 4000 in
/-- C1, witness: with only 19 samples the score of an outlier query is 0. -/
theorem statisticalModel_score_spec_witness :
    (List.foldl addDataPoint statInit (List.replicate 19 1)).dataPoints.length < 20 ∧
    calculateAnomalyScore (List.foldl addDataPoint statInit (List.replicate 19 1)) 99 = 0 :=
  ⟨by decide, (statisticalModel_score_spec (List.replicate 19 1) 99).1 (Or.inl (by decide))⟩

theorem train_trainingData (shuffles : ℕ → List (List ℚ) → List (List ℚ))
    (rnd : ℕ → ℚ) (k : ℕ) (f : IsolationForest) :
    (train shuffles rnd k f).1.trainingData = f.trainingData := by
  unfold train
  by_cases h : f.trainingData.length < 20
  · rw [if_pos h]
  · rw [if_neg h]

theorem forestReachable_pool_le (f : IsolationForest) (h : ForestReachable f) :
    f.trainingData.length ≤ 500 := by
  induction h with
  | init => simp [forestInit]
  | observe shuffles rnd k f features _ ih =>
    simp only [addTrainingData]
    have hle : (if 500 < (f.trainingData ++ [features]).length
        then (f.trainingData ++ [features]).tail
        else f.trainingData ++ [features]).length ≤ 500 := by
      by_cases hc : 500 < (f.trainingData ++ [features]).length
      · rw [if_pos hc]
        simp only [List.length_tail, List.length_append, List.length_singleton] at hc ⊢
        omega
      · rw [if_neg hc]
        simp only [List.length_append, List.length_singleton] at hc ⊢
        omega
    by_cases ht : (if 500 < (f.trainingData ++ [features]).length
        then (f.trainingData ++ [features]).tail
        else f.trainingData ++ [features]).length % 50 = 0 ∧
        100 ≤ (if 500 < (f.trainingData ++ [features]).length
          then (f.trainingData ++ [features]).tail
          else f.trainingData ++ [features]).length
    · rw [if_pos ht, train_trainingData]
      exact hle
    · rw [if_neg ht]
      exact hle
  | trainStep shuffles rnd k f _ ih =>
    rw [train_trainingData]
    exact ih

theorem detReachable_history_le (s : AnomalyDetectorState) (h : DetReachable s) :
    s.anomalyHistory.length ≤ 1000 := by
  induction h with
  | init => simp [detInit]
  | tick s batch now _ ih =>
    unfold processTelemetryStep
    by_cases hb : batch.isEmpty = true
    · rw [if_pos (by simp [hb])]
      exact ih
    · rw [if_neg (by simp [hb])]
      unfold processDetectedAnomalies
      by_cases ht : 1000 <
          (cleanupOldAnomalies now (batch.foldl (insertAnomaly now) s)).anomalyHistory.length
      · rw [if_pos ht]
        simp only [List.length_drop]
        omega
      · rw [if_neg ht]
        omega
  | ack s aid who now _ ih =>
    unfold acknowledgeAnomaly
    cases hf : s.anomalies.find? (fun a => a.id = aid) with
    | some a =>
      show (s.anomalyHistory.map _).length ≤ 1000
      rw [List.length_map]
      exact ih
    | none => exact ih

/-- C6.  Capacity bounds over every reachable state: the per-category
rolling telemetry histories never exceed 300 entries, the isolation
forest's training pool never exceeds 500 vectors, and the alert history
never exceeds 1000 entries after a pipeline step completes. -/
theorem capacity_bounds :
    (∀ st : TelemetrySimulator, SimReachable st →
      st.dataHistoryPower.length ≤ 300 ∧ st.dataHistoryThermal.length ≤ 300 ∧
      st.dataHistoryCommunication.length ≤ 300 ∧ st.dataHistoryAttitude.length ≤ 300) ∧
    (∀ f : IsolationForest, ForestReachable f → f.trainingData.length ≤ 500) ∧
    (∀ s : AnomalyDetectorState, DetReachable s → s.anomalyHistory.length ≤ 1000) := by
  refine ⟨?_, forestReachable_pool_le, detReachable_history_le⟩
  intro st h
  obtain ⟨h1, h2, h3, h4⟩ := simReachable_inv st h
  exact ⟨h1, by omega, by omega, by simp [h4]⟩

/-- C6, witness at the three initial states. -/
theorem capacity_bounds_witness :
    (simInit.dataHistoryPower.length ≤ 300 ∧ simInit.dataHistoryThermal.length ≤ 300 ∧
      simInit.dataHistoryCommunication.length ≤ 300 ∧
      simInit.dataHistoryAttitude.length ≤ 300) ∧
    forestInit.trainingData.length ≤ 500 ∧
    detInit.anomalyHistory.length ≤ 1000 :=
  ⟨capacity_bounds.1 simInit SimReachable.init,
    capacity_bounds.2.1 forestInit ForestReachable.init,
    capacity_bounds.2.2 detInit DetReachable.init⟩

theorem addTrainingData_small (shuffles : ℕ → List (List ℚ) → List (List ℚ))
    (rnd : ℕ → ℚ) (k : ℕ) (f : IsolationForest) (v : List ℚ)
    (h : f.trainingData.length + 1 < 100) :
    (addTrainingData shuffles rnd k f v).1
      = { f with trainingData := f.trainingData ++ [v] } := by
  have h5 : ¬ 500 < (f.trainingData ++ [v]).length := by
    simp only [List.length_append, List.length_singleton, List.length_cons,
      List.length_nil]
    omega
  have h100 : ¬ ((f.trainingData ++ [v]).length % 50 = 0 ∧
      100 ≤ (f.trainingData ++ [v]).length) := by
    rintro ⟨-, hc⟩
    simp only [List.length_append, List.length_singleton, List.length_cons,
      List.length_nil] at hc
    omega
  simp only [addTrainingData]
  rw [if_neg h5, if_neg h100]

theorem forestReachable_append (l : List (List ℚ)) :
    ∀ f : IsolationForest, ForestReachable f → f.trees = [] → f.trained = false →
      f.trainingData.length + l.length < 100 →
      ForestReachable
        { trees := [], trainingData := f.trainingData ++ l, trained := false } := by
  induction l with
  | nil =>
    intro f hf ht htr hlen
    have heq :
        ({ trees := [], trainingData := f.trainingData ++ [], trained := false } :
          IsolationForest) = f := by
      cases f
      simp_all
    rw [heq]
    exact hf
  | cons v rest ih =>
    intro f hf ht htr hlen
    have hstep := ForestReachable.observe idShuffle rndZero 0 f v hf
    rw [addTrainingData_small idShuffle rndZero 0 f v
      (by simp only [List.length_cons] at hlen; omega)] at hstep
    have hres := ih { f with trainingData := f.trainingData ++ [v] } hstep
      (by simp [ht]) (by simp [htr])
      (by simp only [List.length_append, List.length_singleton, List.length_cons,
            List.length_nil] at hlen ⊢
          omega)
    simpa [List.append_assoc] using hres

theorem bugForestPre_reachable : ForestReachable bugForestPre := by
  have h := forestReachable_append bugPool forestInit ForestReachable.init rfl rfl
    (by decide)
  simpa [forestInit, bugForestPre] using h

theorem buildTree_rndZero_root (fuel k : ℕ) (data : List (List ℚ))
    (hlen : 1 < data.length)
    (hne : listMinQ (data.map fun p => p.getD 0 0)
      ≠ listMaxQ (data.map fun p => p.getD 0 0)) :
    ∃ sp l r k', buildTree rndZero (fuel + 1) k data = (.node 0 sp l r, k') := by
  simp only [buildTree]
  rw [if_neg (by omega)]
  simp only [rndZero, zero_mul, Int.floor_zero, Int.toNat_zero, zero_add]
  rw [if_neg hne]
  exact ⟨_, _, _, _, rfl⟩

theorem range_foldl_trees (step : List ITree × ℕ → ℕ → List ITree × ℕ)
    (hstep : ∀ acc i, ∃ t k', step acc i = (acc.1 ++ [t], k') ∧
      ∃ sp l r, t = ITree.node 0 sp l r) :
    ∀ (l : List ℕ) (acc : List ITree × ℕ),
      (∀ t ∈ acc.1, ∃ sp a b, t = ITree.node 0 sp a b) →
      (∀ t ∈ (l.foldl step acc).1, ∃ sp a b, t = ITree.node 0 sp a b) ∧
      (l.foldl step acc).1.length = acc.1.length + l.length := by
  intro l
  induction l with
  | nil => exact fun acc hacc => ⟨hacc, by simp⟩
  | cons i rest ih =>
    intro acc hacc
    obtain ⟨t, k', hs, hroot⟩ := hstep acc i
    rw [List.foldl_cons, hs]
    have hacc' : ∀ x ∈ acc.1 ++ [t], ∃ sp a b, x = ITree.node 0 sp a b := by
      intro x hx
      rcases List.mem_append.mp hx with hx | hx
      · exact hacc x hx
      · rw [List.mem_singleton] at hx
        subst hx
        exact hroot
    obtain ⟨h1, h2⟩ := ih (acc.1 ++ [t], k') hacc'
    refine ⟨h1, ?_⟩
    rw [h2]
    show (acc.1 ++ [t]).length + rest.length = acc.1.length + (i :: rest).length
    simp only [List.length_append, List.length_singleton, List.length_cons,
      List.length_nil]
    omega

set_option maxRecDepth 8000 in
/-- C2 (code bug).  A reachable trained forest on which `predict` returns
`NaN` (modelled `none`), not a float in `[0, 1]`: `getPathLength`'s leaf
test `!tree.featureIndex` is also true of an internal node whose
`featureIndex` is `0`, and that branch then computes `c(undefined) = NaN`,
which propagates through the average and the clamp. -/
theorem predict_NaN_after_training :
    ForestReachable bugForest ∧
    bugForest.trained = true ∧
    predict bugForest [0, 0, 0, 0, 0, 0, 0, 0] = none := by
  have hreach : ForestReachable bugForest :=
    ForestReachable.trainStep idShuffle rndZero 0 bugForestPre bugForestPre_reachable
  have hlen20 : ¬ bugForestPre.trainingData.length < 20 := by decide
  have htrained : bugForest.trained = true := by
    show (train idShuffle rndZero 0 bugForestPre).1.trained = true
    unfold train
    rw [if_neg hlen20]
  have htrees : bugForest.trees
      = ((List.range 10).foldl (trainStepFn idShuffle rndZero bugPool) ([], 0)).1 := by
    show (train idShuffle rndZero 0 bugForestPre).1.trees = _
    unfold train
    rw [if_neg hlen20]
    rfl
  obtain ⟨m, hm⟩ : ∃ m, Nat.clog 2 50 = m + 1 := by
    have hp : 0 < Nat.clog 2 50 := Nat.clog_pos (by omega) (by omega)
    exact ⟨Nat.clog 2 50 - 1, by omega⟩
  have hstep : ∀ (acc : List ITree × ℕ) (i : ℕ),
      ∃ t k', trainStepFn idShuffle rndZero bugPool acc i = (acc.1 ++ [t], k') ∧
        ∃ sp l r, t = ITree.node 0 sp l r := by
    intro acc i
    have hsub : (idShuffle i bugPool).take 50 = bugPool := by
      show bugPool.take 50 = bugPool
      exact List.take_of_length_le (by decide)
    obtain ⟨sp, l, r, k', heq⟩ :=
      buildTree_rndZero_root m acc.2 bugPool (by decide) (by decide)
    refine ⟨(buildTree rndZero (Nat.clog 2 50) acc.2 ((idShuffle i bugPool).take 50)).1,
      (buildTree rndZero (Nat.clog 2 50) acc.2 ((idShuffle i bugPool).take 50)).2,
      rfl, sp, l, r, ?_⟩
    rw [hsub, hm, heq]
  obtain ⟨hall, hcnt⟩ := range_foldl_trees (trainStepFn idShuffle rndZero bugPool)
    hstep (List.range 10) ([], 0) (by simp)
  rw [← htrees] at hall hcnt
  have htrne : bugForest.trees ≠ [] := by
    intro hnil
    rw [hnil] at hcnt
    simp at hcnt
  refine ⟨hreach, htrained, ?_⟩
  unfold predict
  rw [if_neg (by simp [htrained, htrne])]
  obtain ⟨t0, ts, hts⟩ : ∃ t0 ts, bugForest.trees = t0 :: ts := by
    cases hx : bugForest.trees with
    | nil => exact absurd hx htrne
    | cons t0 ts => exact ⟨t0, ts, rfl⟩
  obtain ⟨sp, a, b, hroot⟩ := hall t0 (by rw [hts]; exact List.mem_cons_self _ _)
  rw [hts, hroot]
  simp only [List.map_cons, List.foldr_cons]
  have hnone : getPathLength [0, 0, 0, 0, 0, 0, 0, 0] (ITree.node 0 sp a b) 0 = none := by
    simp [getPathLength]
  rw [hnone]
  simp

end SatDash
